import Mathlib

/-!
Verification development for the swarm2 multi-agent orchestration harness.

The definitions below are a shallow embedding of the repository's core
mechanisms:

* `kernel.py` — the self-healing tool wrapper (`self_healing_tool`), the
  worker dispatcher (`spawn_worker`) and the status poller
  (`check_worker_status`);
* `agents/worker.py` — the worker runtime (`run_worker`) and its result
  publishing;
* `security.py` — the permission gate (`requires_permission`) and
  credential retrieval (`get_credential`).

Python's `json.dumps(..., indent=2)` / `json.loads` pair is modelled by
`json_dumps` / `json_loads` over the `JVal` type.  The parser covers the
JSON subset exchanged by the system (strings with full escape handling
including surrogate pairs, objects, arrays, integers, booleans, null);
it rejects lone surrogate escapes (unrepresentable in Lean's `Char`) and
non-integer numerals, which never occur in the records the system writes.
External collaborators (the LLM reasoning call, the filesystem) are
modelled as explicit oracle arguments, following the specification's
collaborator boundaries.
-/

/-- JSON whitespace characters (exactly the set accepted by Python's
strict JSON decoder: space, tab, newline, carriage return). -/
def isWsChar (c : Char) : Bool :=
  c = ' ' || c = '\t' || c = '\n' || c = '\r'

/-- Drop leading JSON whitespace. -/
def skipWs : List Char → List Char
  | [] => []
  | c :: cs => if isWsChar c then skipWs cs else c :: cs

/-- Lower-case hexadecimal digit, as emitted by Python's JSON encoder. -/
def hexDigitChar (n : Nat) : Char :=
  if n < 10 then Char.ofNat (48 + n) else Char.ofNat (87 + n)

/-- Four-digit lower-case hexadecimal rendering of `n % 0x10000`. -/
def hex4 (n : Nat) : List Char :=
  [hexDigitChar (n / 4096 % 16), hexDigitChar (n / 256 % 16),
   hexDigitChar (n / 16 % 16), hexDigitChar (n % 16)]

/-- Value of a hexadecimal digit (both cases accepted, as by `json.loads`). -/
def hexVal (c : Char) : Option Nat :=
  if '0' ≤ c ∧ c ≤ '9' then some (c.toNat - 48)
  else if 'a' ≤ c ∧ c ≤ 'f' then some (c.toNat - 87)
  else if 'A' ≤ c ∧ c ≤ 'F' then some (c.toNat - 55)
  else none

/-- Escape one character the way Python's `json.dumps` does with its
default `ensure_ascii=True`: named escapes for the common control
characters, backslash and quote; printable ASCII verbatim; `\uXXXX` for
everything else, with astral characters as UTF-16 surrogate pairs. -/
def escChar (c : Char) : List Char :=
  if c = '"' then ['\\', '"']
  else if c = '\\' then ['\\', '\\']
  else if c = '\n' then ['\\', 'n']
  else if c = '\r' then ['\\', 'r']
  else if c = '\t' then ['\\', 't']
  else if c = '\x08' then ['\\', 'b']
  else if c = '\x0c' then ['\\', 'f']
  else if 0x20 ≤ c.toNat ∧ c.toNat < 0x7f then [c]
  else if c.toNat < 0x10000 then '\\' :: 'u' :: hex4 c.toNat
  else
    '\\' :: 'u' :: hex4 (0xd800 + (c.toNat - 0x10000) / 0x400) ++
      '\\' :: 'u' :: hex4 (0xdc00 + (c.toNat - 0x10000) % 0x400)

/-- Escape a character sequence (body of a JSON string literal). -/
def escList : List Char → List Char
  | [] => []
  | c :: cs => escChar c ++ escList cs

/-- A JSON string literal, quotes included. -/
def qChars (s : String) : List Char :=
  '"' :: (escList s.data ++ ['"'])

/-- JSON values, as produced by `json.loads` on the data this system
exchanges (numbers restricted to integers). -/
inductive JVal where
  | null : JVal
  | bool : Bool → JVal
  | num : Int → JVal
  | str : String → JVal
  | arr : List JVal → JVal
  | obj : List (String × JVal) → JVal

/-- Read four hexadecimal digits from the front of the input. -/
def hex4Val (cs : List Char) : Option Nat :=
  match cs with
  | h1 :: h2 :: h3 :: h4 :: _ =>
    match hexVal h1, hexVal h2, hexVal h3, hexVal h4 with
    | some a, some b, some c, some d => some (((a * 16 + b) * 16 + c) * 16 + d)
    | _, _, _, _ => none
  | _ => none

/-- Decode one escape sequence (the backslash already consumed): the
decoded character and the number of input characters consumed.
Surrogate pairs are recombined exactly as Python's decoder does; a lone
surrogate escape is rejected (Lean's `Char` cannot represent it). -/
def unescape1 (cs : List Char) : Option (Char × Nat) :=
  match cs with
  | [] => none
  | e :: rest2 =>
    if e = '"' then some ('"', 1)
    else if e = '\\' then some ('\\', 1)
    else if e = '/' then some ('/', 1)
    else if e = 'n' then some ('\n', 1)
    else if e = 't' then some ('\t', 1)
    else if e = 'r' then some ('\r', 1)
    else if e = 'b' then some ('\x08', 1)
    else if e = 'f' then some ('\x0c', 1)
    else if e = 'u' then
      match hex4Val rest2 with
      | none => none
      | some code =>
        if 0xd800 ≤ code ∧ code ≤ 0xdbff then
          if (rest2.drop 4).take 2 = ['\\', 'u'] then
            match hex4Val (rest2.drop 6) with
            | none => none
            | some lo =>
              if 0xdc00 ≤ lo ∧ lo ≤ 0xdfff then
                some (Char.ofNat (0x10000 + (code - 0xd800) * 0x400 + (lo - 0xdc00)), 11)
              else none
          else none
        else if 0xdc00 ≤ code ∧ code ≤ 0xdfff then none
        else some (Char.ofNat code, 5)
    else none

/-- Scanner for the body of a JSON string literal (the opening quote
already consumed): accumulate decoded characters in `acc`; `skip` counts
input characters belonging to an escape sequence already decoded by
`unescape1` that remain to be stepped over. -/
def parseJStringGo : List Char → List Char → Nat → Option (List Char × List Char)
  | [], _, _ => none
  | _ :: rest, acc, skip + 1 => parseJStringGo rest acc skip
  | c :: rest, acc, 0 =>
    if c = '"' then some (acc, rest)
    else if c = '\\' then
      match unescape1 rest with
      | some (ch, used) => parseJStringGo rest (acc ++ [ch]) used
      | none => none
    else if c.toNat < 0x20 then none
    else parseJStringGo rest (acc ++ [c]) 0

/-- Parse the body of a JSON string literal (the opening quote already
consumed), returning the decoded body and the input remaining after the
closing quote. -/
def parseJString (cs acc : List Char) : Option (List Char × List Char) :=
  parseJStringGo cs acc 0

/-- Parse a run of decimal digits into a `Nat`. -/
def parseNum (cs : List Char) : Option (Nat × List Char) :=
  let ds := cs.takeWhile Char.isDigit
  if ds.isEmpty then none
  else some (ds.foldl (fun a c => a * 10 + (c.toNat - 48)) 0, cs.drop ds.length)

/-- Parsing mode: a standalone value, the members of an object (with the
members parsed so far), or the elements of an array. -/
inductive PMode where
  | value : PMode
  | members : List (String × JVal) → PMode
  | elems : List JVal → PMode

/-- Recursive-descent JSON parser, fuelled to make the recursion
structural; `json_loads` supplies fuel exceeding any possible nesting
and member count for its input. -/
def parseCore : Nat → PMode → List Char → Option (JVal × List Char)
  | 0, _, _ => none
  | fuel + 1, PMode.value, cs0 =>
    match skipWs cs0 with
    | [] => none
    | c :: cs =>
      if c = '"' then
        match parseJString cs [] with
        | none => none
        | some (l, rest) => some (JVal.str (String.mk l), rest)
      else if c = '{' then
        match skipWs cs with
        | [] => none
        | c2 :: cs2 =>
          if c2 = '}' then some (JVal.obj [], cs2)
          else parseCore fuel (PMode.members []) (c2 :: cs2)
      else if c = '[' then
        match skipWs cs with
        | [] => none
        | c2 :: cs2 =>
          if c2 = ']' then some (JVal.arr [], cs2)
          else parseCore fuel (PMode.elems []) (c2 :: cs2)
      else if c = 't' then
        if cs.take 3 = ['r', 'u', 'e'] then some (JVal.bool true, cs.drop 3) else none
      else if c = 'f' then
        if cs.take 4 = ['a', 'l', 's', 'e'] then some (JVal.bool false, cs.drop 4) else none
      else if c = 'n' then
        if cs.take 3 = ['u', 'l', 'l'] then some (JVal.null, cs.drop 3) else none
      else if c = '-' then
        match parseNum cs with
        | none => none
        | some (n, rest) => some (JVal.num (-(n : Int)), rest)
      else if c.isDigit then
        match parseNum (c :: cs) with
        | none => none
        | some (n, rest) => some (JVal.num (n : Int), rest)
      else none
  | fuel + 1, PMode.members acc, cs0 =>
    match skipWs cs0 with
    | [] => none
    | c :: cs =>
      if c = '"' then
        match parseJString cs [] with
        | none => none
        | some (k, rest2) =>
          match skipWs rest2 with
          | [] => none
          | c2 :: rest3 =>
            if c2 = ':' then
              match parseCore fuel PMode.value rest3 with
              | none => none
              | some (v, rest4) =>
                match skipWs rest4 with
                | [] => none
                | c3 :: rest5 =>
                  if c3 = ',' then parseCore fuel (PMode.members (acc ++ [(String.mk k, v)])) rest5
                  else if c3 = '}' then some (JVal.obj (acc ++ [(String.mk k, v)]), rest5)
                  else none
            else none
      else none
  | fuel + 1, PMode.elems acc, cs0 =>
    match parseCore fuel PMode.value cs0 with
    | none => none
    | some (v, rest) =>
      match skipWs rest with
      | [] => none
      | c :: rest2 =>
        if c = ',' then parseCore fuel (PMode.elems (acc ++ [v])) rest2
        else if c = ']' then some (JVal.arr (acc ++ [v]), rest2)
        else none

/-- Model of Python's `json.loads`: parse one value and require that only
whitespace remains. -/
def json_loads (s : String) : Option JVal :=
  match parseCore (s.data.length + 1) PMode.value s.data with
  | none => none
  | some (v, rest) => if skipWs rest = [] then some v else none

/-- Indentation emitted at nesting level `lvl` by `json.dumps(..., indent=2)`. -/
def indentChars (lvl : Nat) : List Char :=
  List.replicate (2 * lvl) ' '

mutual

/-- Character stream of `json.dumps(v, indent=2)` at nesting level `lvl`. -/
def dumpChars (lvl : Nat) : JVal → List Char
  | JVal.null => ['n', 'u', 'l', 'l']
  | JVal.bool true => ['t', 'r', 'u', 'e']
  | JVal.bool false => ['f', 'a', 'l', 's', 'e']
  | JVal.num i => (toString i).data
  | JVal.str s => qChars s
  | JVal.obj [] => ['{', '}']
  | JVal.obj (f :: fs) =>
    '{' :: '\n' :: (dumpMembersChars (lvl + 1) f fs ++ '\n' :: (indentChars lvl ++ ['}']))
  | JVal.arr [] => ['[', ']']
  | JVal.arr (e :: es) =>
    '[' :: '\n' :: (dumpElemsChars (lvl + 1) e es ++ '\n' :: (indentChars lvl ++ [']']))
termination_by v => sizeOf v
decreasing_by all_goals (simp_wf; try omega)

/-- Render a nonempty object member list, separated by `",\n"`, each
member indented to level `lvl`. -/
def dumpMembersChars (lvl : Nat) : (String × JVal) → List (String × JVal) → List Char
  | (k, v), [] => indentChars lvl ++ (qChars k ++ ':' :: ' ' :: dumpChars lvl v)
  | (k, v), g :: gs =>
    indentChars lvl ++
      (qChars k ++ ':' :: ' ' :: (dumpChars lvl v ++ ',' :: '\n' :: dumpMembersChars lvl g gs))
termination_by f fs => 1 + sizeOf f + sizeOf fs
decreasing_by all_goals (simp_wf; try omega)

/-- Render a nonempty array element list. -/
def dumpElemsChars (lvl : Nat) : JVal → List JVal → List Char
  | v, [] => indentChars lvl ++ dumpChars lvl v
  | v, e :: es => indentChars lvl ++ (dumpChars lvl v ++ ',' :: '\n' :: dumpElemsChars lvl e es)
termination_by v vs => 1 + sizeOf v + sizeOf vs
decreasing_by all_goals (simp_wf; try omega)

end

/-- Model of Python's `json.dumps(v, indent=2)` (and of `json.dump` to a
file with the same arguments, whose output text is identical). -/
def json_dumps (v : JVal) : String :=
  String.mk (dumpChars 0 v)

/-- Lift an association list of string fields to JSON object members. -/
def strPairs (ps : List (String × String)) : List (String × JVal) :=
  ps.map (fun p => (p.1, JVal.str p.2))

/-- Look up a field of a JSON object; on duplicate keys the last wins,
matching Python `dict` construction. -/
def objGet : JVal → String → Option JVal
  | JVal.obj fs, k => (fs.reverse.find? (fun p => p.1 == k)).map (fun p => p.2)
  | _, _ => none

/-! ## Python string primitives

Models of the Python `str` methods the source uses (`strip`, `lower`,
`upper`, `replace`), written over `List Char` so they compute by kernel
reduction. -/

/-- Characters stripped by Python's `str.strip()` with no argument. -/
def isPyWs (c : Char) : Bool :=
  c = ' ' || c = '\t' || c = '\n' || c = '\r' || c = '\x0b' || c = '\x0c'

/-- Model of Python `str.strip()`: drop whitespace from both ends. -/
def pyStrip (s : String) : String :=
  String.mk (((s.data.dropWhile isPyWs).reverse.dropWhile isPyWs).reverse)

/-- Model of Python `str.lower()` (ASCII letters; the inputs compared by
the source are ASCII). -/
def pyLower (s : String) : String :=
  String.mk (s.data.map Char.toLower)

/-- Model of Python `str.upper()` (ASCII letters). -/
def pyUpper (s : String) : String :=
  String.mk (s.data.map Char.toUpper)

/-- Worker for `pyReplace`: scan left to right; `skip` counts characters
of an already-matched occurrence still to be consumed. -/
def replaceGo (old new : List Char) : List Char → Nat → List Char
  | [], _ => []
  | c :: rest, skip + 1 =>
    let _ := c
    replaceGo old new rest skip
  | c :: rest, 0 =>
    if old.isPrefixOf (c :: rest) then new ++ replaceGo old new rest (old.length - 1)
    else c :: replaceGo old new rest 0

/-- Model of Python `str.replace(old, new)`: replace all non-overlapping
occurrences, left to right. -/
def pyReplace (s old new : String) : String :=
  String.mk (replaceGo old.data new.data s.data 0)

/-- The literal `<think>`. -/
def thinkOpen : List Char := ['<', 't', 'h', 'i', 'n', 'k', '>']

/-- The literal `</think>`. -/
def thinkClose : List Char := ['<', '/', 't', 'h', 'i', 'n', 'k', '>']

/-- Distance from the current position to just past the next `</think>`,
if one occurs. -/
def closeDist : List Char → Option Nat
  | [] => none
  | c :: rest =>
    if thinkClose.isPrefixOf (c :: rest) then some 8
    else
      let _ := c
      (closeDist rest).map (fun d => d + 1)

/-- Worker for `removeThinks`: deletes every `<think>...</think>` block
(shortest match, left to right), as `re.sub(r'<think>.*?</think>', '', s,
flags=re.DOTALL)` does; an unclosed `<think>` matches nothing and is
kept verbatim. -/
def thinkGo : List Char → Nat → List Char
  | [], _ => []
  | c :: rest, skip + 1 =>
    let _ := c
    thinkGo rest skip
  | c :: rest, 0 =>
    if thinkOpen.isPrefixOf (c :: rest) then
      match closeDist ((c :: rest).drop 7) with
      | some d => thinkGo rest (6 + d)
      | none => c :: rest
    else c :: thinkGo rest 0

/-- Model of `re.sub(r'<think>.*?</think>', '', s, flags=re.DOTALL)`. -/
def removeThinks (s : String) : String :=
  String.mk (thinkGo s.data 0)

/-! ## kernel.py — the self-healing wrapper (`self_healing_tool`) -/

/-- The cleaning pipeline `kernel.py` applies to a healer response before
`json.loads`:
`response.replace('```json', '').replace('```', '').strip()` followed by
the `<think>` block removal and a final `strip()`. -/
def cleanResponse (resp : String) : String :=
  pyStrip (removeThinks (pyStrip (pyReplace (pyReplace resp "```json" "") "```" "")))

/-- The argument update performed by one healing step (kernel.py lines
53–65): parse the cleaned healer response as JSON; on any parse failure
keep the previous argument set (the `except` branch only logs). -/
def healUpdate (resp : String) (current : JVal) : JVal :=
  match json_loads (cleanResponse resp) with
  | some k => k
  | none => current

/-- Result of a wrapped invocation, instrumented with how many times the
wrapped operation and the healer reasoning call ran. -/
structure SHResult where
  value : String
  opCalls : Nat
  healerCalls : Nat
deriving DecidableEq

/-- The retry loop of `self_healing_tool` (kernel.py lines 35–66).  The
wrapped operation is an oracle indexed by attempt number (Python's
`func` may be stateful); the healer reasoning call is an oracle from
attempt number to its text response.  The remaining loop iterations are
carried as the list of attempt indices, mirroring `for attempt in
range(attempts)` with `attempts = 3`. -/
def selfHealingGo (name : String) (op : Nat → JVal → Except String String)
    (healer : Nat → String) : List Nat → JVal → String → SHResult
  | [], _, lastError =>
    { value := "Tool '" ++ name ++ "' failed permanently after 3 attempts. Last error: " ++
        lastError,
      opCalls := 0, healerCalls := 0 }
  | attempt :: rest, current, lastError =>
    let _ := lastError
    match op attempt current with
    | Except.ok v => { value := v, opCalls := 1, healerCalls := 0 }
    | Except.error e =>
      let r := selfHealingGo name op healer rest (healUpdate (healer attempt) current) e
      { value := r.value, opCalls := r.opCalls + 1, healerCalls := r.healerCalls + 1 }

/-- Model of the decorator `self_healing_tool` applied to an operation:
run the retry loop with attempts `[0, 1, 2]` (`range(3)`), the caller's
keyword arguments, and `last_error = ""`. -/
def self_healing_tool (name : String) (op : Nat → JVal → Except String String)
    (healer : Nat → String) (kwargs : JVal) : SHResult :=
  selfHealingGo name op healer [0, 1, 2] kwargs ""

/-- Adds one wrapped-operation call and one healer call to the counts;
one failed loop iteration contributes exactly this. -/
def bump (r : SHResult) : SHResult :=
  { value := r.value, opCalls := r.opCalls + 1, healerCalls := r.healerCalls + 1 }

/-! ## agents/worker.py — the worker runtime -/

/-- The ResultRecord `run_worker` builds (worker.py lines 43–57): the
reasoning call is an oracle that either returns the response text or
raises with a message. -/
def run_workerRecord (role goal : String) (agentRun : Except String String) :
    List (String × String) :=
  match agentRun with
  | Except.ok resp => [("status", "success"), ("role", role), ("goal", goal), ("response", resp)]
  | Except.error e => [("status", "error"), ("role", role), ("goal", goal), ("error", e)]

/-- The ResultRecord as the JSON object `json.dump` serializes. -/
def run_workerJson (role goal : String) (agentRun : Except String String) : JVal :=
  JVal.obj (strPairs (run_workerRecord role goal agentRun))

/-- Model of `run_worker` (worker.py lines 13–64) at the level of its
file-write events: it always performs exactly one write, of the
serialized ResultRecord, to `<workspace_dir>/result.json`. -/
def run_worker (role goal workspace_dir : String) (agentRun : Except String String) :
    List (String × String) :=
  [(workspace_dir ++ "/result.json", json_dumps (run_workerJson role goal agentRun))]

/-- The observable contents of the result file while
`with open(result_file, "w") as f: json.dump(result, f, indent=2)`
executes: opening with mode `"w"` truncates the file (the empty state),
and the serialized text then appears incrementally, so every prefix of
the final content is an observable state.  There is no write-then-rename
step in the source. -/
def writeFileStates (content : String) : List (Option String) :=
  (List.range (content.length + 1)).map (fun k => some (String.mk (content.data.take k)))

/-! ## kernel.py — the status poller (`check_worker_status`) -/

/-- The specification's `PollResult`: the three distinguishable outcomes
of a poll. -/
inductive PollOutcome where
  | pending : PollOutcome
  | readError : PollOutcome
  | completed : JVal → PollOutcome

/-- The branch structure of `check_worker_status` (kernel.py lines
185–203): file absent → pending; present but unparseable → read error;
present and parseable → completed with the parsed record. -/
def pollClassify : Option String → PollOutcome
  | none => PollOutcome.pending
  | some content =>
    match json_loads content with
    | none => PollOutcome.readError
    | some v => PollOutcome.completed v

/-- The "still running" message of `check_worker_status`. -/
def pendingMsg (worker_id : String) : String :=
  "Worker " ++ worker_id ++ " is still running or failed. No result found yet."

/-- The read-error message of `check_worker_status`.  The Python code
interpolates the exception text; the model uses a fixed description of
the only exception its parse model produces. -/
def readErrMsg (worker_id : String) : String :=
  "Error reading result for worker " ++ worker_id ++ ": invalid JSON"

/-- The completion message of `check_worker_status`, re-rendering the
parsed record with `json.dumps(data, indent=2)`. -/
def completedMsg (worker_id : String) (data : JVal) : String :=
  "Worker " ++ worker_id ++ " completed. Result:\n" ++ json_dumps data

/-- Model of `check_worker_status` (kernel.py lines 185–203).  The result
file is passed as `none` (absent) or `some content`. -/
def check_worker_status (worker_id : String) : Option String → String
  | none => pendingMsg worker_id
  | some content =>
    match json_loads content with
    | none => readErrMsg worker_id
    | some data => completedMsg worker_id data

/-! ## security.py — permission gate and credentials -/

/-- Outcome of a gated call: the operation ran and returned a result, the
operator denied it, or the input stream was exhausted without a decision
(in Python the `while True` loop would keep prompting). -/
inductive GateOutcome where
  | allowed : String → GateOutcome
  | denied : String → GateOutcome
  | exhausted : GateOutcome
deriving DecidableEq

/-- A gate outcome instrumented with how many times the wrapped operation
executed. -/
structure GateResult where
  outcome : GateOutcome
  opCalls : Nat
deriving DecidableEq

/-- Model of the `requires_permission` wrapper (security.py lines 5–33):
read operator lines in order; `choice = input(...).strip().lower()`;
`"y"` runs the operation, `"n"` returns the standard denial message,
anything else re-prompts. -/
def requires_permission (op : Unit → String) : List String → GateResult
  | [] => { outcome := GateOutcome.exhausted, opCalls := 0 }
  | c :: rest =>
    let choice := pyLower (pyStrip c)
    if choice = "y" then { outcome := GateOutcome.allowed (op ()), opCalls := 1 }
    else if choice = "n" then
      { outcome := GateOutcome.denied "Permission Denied: User rejected the execution of this tool.",
        opCalls := 0 }
    else requires_permission op rest

/-- First environment entry for a key, as `os.environ.get`. -/
def envLookup (env : List (String × String)) (k : String) : Option String :=
  (env.find? (fun p => p.1 == k)).map (fun p => p.2)

/-- The three status messages `get_credential` can return, selected by
whether a non-empty token was found in the environment and whether the
manual input was non-empty.  Note the message is built from the service
name alone — no token value flows into it. -/
def credMessage (service_name : String) (envHas manualGiven : Bool) : String :=
  if envHas then "Credential for '" ++ service_name ++ "' retrieved successfully from environment."
  else if manualGiven then
    "Credential for '" ++ service_name ++ "' provided manually and stored in active session."
  else "Error: No credential provided for " ++ service_name ++ "."

/-- Model of `get_credential` (security.py lines 35–63): check
`os.environ` for `<SERVICE>_TOKEN` (Python's `if token:` is false for a
missing or empty value); otherwise prompt, store a non-empty manual
token into the environment, and return a status message.  Returns the
updated environment and the message. -/
def get_credential (service_name : String) (env : List (String × String))
    (manualInput : String) : List (String × String) × String :=
  let env_var_name := pyUpper service_name ++ "_TOKEN"
  if (envLookup env env_var_name).getD "" ≠ "" then
    (env, "Credential for '" ++ service_name ++ "' retrieved successfully from environment.")
  else
    let manual_token := pyStrip manualInput
    if manual_token ≠ "" then
      ((env_var_name, manual_token) :: env,
        "Credential for '" ++ service_name ++ "' provided manually and stored in active session.")
    else (env, "Error: No credential provided for " ++ service_name ++ ".")

/-! ## kernel.py — the dispatcher (`spawn_worker`) -/

/-- Model of `os.makedirs(path, exist_ok=ok)` over a directory set:
raises `FileExistsError` only when the directory exists and `exist_ok`
is false. -/
def makedirs (path : String) (exist_ok : Bool) (dirs : List String) :
    Except String (List String) :=
  if path ∈ dirs then
    if exist_ok then Except.ok dirs else Except.error ("FileExistsError: " ++ path)
  else Except.ok (path :: dirs)

/-- Outcome of a dispatch: the directory set afterwards, whether the
worker process was launched, and the returned handle message. -/
structure SpawnResult where
  dirs : List String
  launched : Bool
  message : String
deriving DecidableEq

/-- Model of `spawn_worker` (kernel.py lines 160–183): create the
workspace directory with `exist_ok=True`, launch the detached worker,
return the handle message.  `os.path.abspath` is modelled as the
identity on the relative path. -/
def spawn_worker (role goal : String) (worker_id : String) (dirs : List String) :
    Except String SpawnResult :=
  let _ := role
  let _ := goal
  let workspace_dir := "./workspaces/" ++ worker_id
  match makedirs workspace_dir true dirs with
  | Except.error e => Except.error e
  | Except.ok dirs2 =>
    Except.ok
      { dirs := dirs2, launched := true,
        message := "Worker Started. ID: " ++ worker_id ++
          ". Check status later with check_worker_status." }

/-! ## Helper lemmas -/

theorem char_valid_nat (c : Char) :
    c.toNat < 0xd800 ∨ (0xdfff < c.toNat ∧ c.toNat < 0x110000) := c.valid

theorem skipWs_cons_neg {c : Char} (h : isWsChar c = false) (l : List Char) :
    skipWs (c :: l) = c :: l := by
  simp [skipWs, h]

theorem skipWs_cons_pos {c : Char} (h : isWsChar c = true) (l : List Char) :
    skipWs (c :: l) = skipWs l := by
  simp [skipWs, h]

theorem skipWs_replicate (n : Nat) (l : List Char) :
    skipWs (List.replicate n ' ' ++ l) = skipWs l := by
  induction n with
  | zero => simp
  | succ n ih => simpa [List.replicate_succ, skipWs, isWsChar] using ih

theorem skipWs_indent (lvl : Nat) (l : List Char) :
    skipWs (indentChars lvl ++ l) = skipWs l :=
  skipWs_replicate _ l

theorem skipWs_idem (l : List Char) : skipWs (skipWs l) = skipWs l := by
  induction l with
  | nil => rfl
  | cons c cs ih =>
    by_cases h : isWsChar c
    · simpa [skipWs, h] using ih
    · simp [skipWs, h]

theorem hexVal_hexDigitChar (d : Nat) (h : d < 16) :
    hexVal (hexDigitChar d) = some d := by
  interval_cases d <;> decide

theorem pjsg_quote (rest acc : List Char) :
    parseJStringGo ('"' :: rest) acc 0 = some (acc, rest) := by
  rw [parseJStringGo.eq_def]; rfl

theorem pjsg_skip (c : Char) (rest acc : List Char) (skip : Nat) :
    parseJStringGo (c :: rest) acc (skip + 1) = parseJStringGo rest acc skip := by
  rw [parseJStringGo.eq_def]

theorem pjsg_backslash (rest acc : List Char) :
    parseJStringGo ('\\' :: rest) acc 0 =
      (match unescape1 rest with
       | some (ch, used) => parseJStringGo rest (acc ++ [ch]) used
       | none => none) := by
  rw [parseJStringGo.eq_def]; rfl

theorem pjsg_plain (c : Char) (hq : c ≠ '"') (hb : c ≠ '\\') (hc : ¬ c.toNat < 0x20)
    (rest acc : List Char) :
    parseJStringGo (c :: rest) acc 0 = parseJStringGo rest (acc ++ [c]) 0 := by
  rw [parseJStringGo.eq_def]
  simp only [if_neg hq, if_neg hb, if_neg hc]

theorem pjsg_skipRun (l : List Char) (rest acc : List Char) :
    parseJStringGo (l ++ rest) acc l.length = parseJStringGo rest acc 0 := by
  induction l generalizing acc with
  | nil => rfl
  | cons c l ih =>
    simp only [List.cons_append, List.length_cons, pjsg_skip]
    exact ih acc

theorem hex4_length (n : Nat) : (hex4 n).length = 4 := rfl

theorem hex4Val_hex4 (n : Nat) (hn : n < 0x10000) (rest : List Char) :
    hex4Val (hex4 n ++ rest) = some n := by
  have d1 : hexVal (hexDigitChar (n / 4096 % 16)) = some (n / 4096 % 16) :=
    hexVal_hexDigitChar _ (Nat.mod_lt _ (by omega))
  have d2 : hexVal (hexDigitChar (n / 256 % 16)) = some (n / 256 % 16) :=
    hexVal_hexDigitChar _ (Nat.mod_lt _ (by omega))
  have d3 : hexVal (hexDigitChar (n / 16 % 16)) = some (n / 16 % 16) :=
    hexVal_hexDigitChar _ (Nat.mod_lt _ (by omega))
  have d4 : hexVal (hexDigitChar (n % 16)) = some (n % 16) :=
    hexVal_hexDigitChar _ (Nat.mod_lt _ (by omega))
  simp only [hex4, List.cons_append, hex4Val, d1, d2, d3, d4]
  congr 1
  omega

theorem unescape1_u (n : Nat) (hn : n < 0x10000) (hs : n < 0xd800 ∨ 0xdfff < n)
    (rest : List Char) :
    unescape1 ('u' :: (hex4 n ++ rest)) = some (Char.ofNat n, 5) := by
  simp only [unescape1, Char.reduceEq, reduceIte, hex4Val_hex4 n hn rest]
  rw [if_neg (by omega), if_neg (by omega)]

theorem unescape1_pair (n : Nat) (h1 : 0x10000 ≤ n) (h2 : n < 0x110000) (rest : List Char) :
    unescape1 ('u' :: (hex4 (0xd800 + (n - 0x10000) / 0x400) ++
        ('\\' :: 'u' :: hex4 (0xdc00 + (n - 0x10000) % 0x400) ++ rest))) =
      some (Char.ofNat n, 11) := by
  have hhi : 0xd800 + (n - 0x10000) / 0x400 < 0x10000 := by omega
  have hdrop4 : (hex4 (0xd800 + (n - 0x10000) / 0x400) ++
      ('\\' :: 'u' :: hex4 (0xdc00 + (n - 0x10000) % 0x400) ++ rest)).drop 4 =
      '\\' :: 'u' :: hex4 (0xdc00 + (n - 0x10000) % 0x400) ++ rest := by
    simp [hex4]
  have hdrop6 : (hex4 (0xd800 + (n - 0x10000) / 0x400) ++
      ('\\' :: 'u' :: hex4 (0xdc00 + (n - 0x10000) % 0x400) ++ rest)).drop 6 =
      hex4 (0xdc00 + (n - 0x10000) % 0x400) ++ rest := by
    simp [hex4]
  have hlo2 : hex4Val (hex4 (0xdc00 + (n - 0x10000) % 0x400) ++ rest) =
      some (0xdc00 + (n - 0x10000) % 0x400) :=
    hex4Val_hex4 _ (by omega) rest
  have htake : List.take 2 ('\\' :: 'u' :: hex4 (0xdc00 + (n - 0x10000) % 0x400) ++ rest) =
      ['\\', 'u'] := by
    simp
  have hval : 0x10000 + (0xd800 + (n - 0x10000) / 0x400 - 0xd800) * 0x400 +
      (0xdc00 + (n - 0x10000) % 0x400 - 0xdc00) = n := by
    omega
  simp only [unescape1, Char.reduceEq, reduceIte, hex4Val_hex4 _ hhi, hdrop4, hdrop6, hlo2]
  rw [if_pos (by omega), if_pos htake, if_pos (by omega), hval]

theorem pjsg_escN (ch : Char) (l tail acc : List Char)
    (h : unescape1 (l ++ tail) = some (ch, l.length)) :
    parseJStringGo ('\\' :: (l ++ tail)) acc 0 = parseJStringGo tail (acc ++ [ch]) 0 := by
  rw [pjsg_backslash, h]
  show parseJStringGo (l ++ tail) (acc ++ [ch]) l.length = _
  exact pjsg_skipRun l tail (acc ++ [ch])

theorem pjsg_escChar (c : Char) (tail acc : List Char) :
    parseJStringGo (escChar c ++ tail) acc 0 = parseJStringGo tail (acc ++ [c]) 0 := by
  by_cases hq : c = '"'
  · subst hq
    exact pjsg_escN '"' ['"'] tail acc rfl
  by_cases hb : c = '\\'
  · subst hb
    exact pjsg_escN '\\' ['\\'] tail acc rfl
  by_cases h3 : c = '\n'
  · subst h3
    exact pjsg_escN '\n' ['n'] tail acc rfl
  by_cases h4 : c = '\r'
  · subst h4
    exact pjsg_escN '\r' ['r'] tail acc rfl
  by_cases h5 : c = '\t'
  · subst h5
    exact pjsg_escN '\t' ['t'] tail acc rfl
  by_cases h6 : c = '\x08'
  · subst h6
    exact pjsg_escN '\x08' ['b'] tail acc rfl
  by_cases h7 : c = '\x0c'
  · subst h7
    exact pjsg_escN '\x0c' ['f'] tail acc rfl
  by_cases h8 : 0x20 ≤ c.toNat ∧ c.toNat < 0x7f
  · have e1 : escChar c = [c] := by
      simp only [escChar, if_neg hq, if_neg hb, if_neg h3, if_neg h4, if_neg h5, if_neg h6,
        if_neg h7, if_pos h8]
    rw [e1, List.cons_append, List.nil_append]
    exact pjsg_plain c hq hb (by omega) tail acc
  by_cases h9 : c.toNat < 0x10000
  · have e1 : escChar c = '\\' :: 'u' :: hex4 c.toNat := by
      simp only [escChar, if_neg hq, if_neg hb, if_neg h3, if_neg h4, if_neg h5, if_neg h6,
        if_neg h7, if_neg h8, if_pos h9]
    have hs : c.toNat < 0xd800 ∨ 0xdfff < c.toNat := by
      rcases char_valid_nat c with h | ⟨h, _⟩
      · exact Or.inl h
      · exact Or.inr h
    rw [e1]
    have := pjsg_escN (Char.ofNat c.toNat) ('u' :: hex4 c.toNat) tail acc
      (by simpa using unescape1_u c.toNat h9 hs tail)
    simp only [List.cons_append, List.append_assoc] at this ⊢
    rw [this, Char.ofNat_toNat]
  · have e1 : escChar c = ('\\' :: 'u' :: hex4 (0xd800 + (c.toNat - 0x10000) / 0x400)) ++
        ('\\' :: 'u' :: hex4 (0xdc00 + (c.toNat - 0x10000) % 0x400)) := by
      simp only [escChar, if_neg hq, if_neg hb, if_neg h3, if_neg h4, if_neg h5, if_neg h6,
        if_neg h7, if_neg h8, if_neg h9]
    have hlow : 0x10000 ≤ c.toNat := by omega
    have hhigh : c.toNat < 0x110000 := by
      rcases char_valid_nat c with h | ⟨_, h⟩
      · omega
      · exact h
    rw [e1]
    have := pjsg_escN (Char.ofNat c.toNat)
      ('u' :: (hex4 (0xd800 + (c.toNat - 0x10000) / 0x400) ++
        ('\\' :: 'u' :: hex4 (0xdc00 + (c.toNat - 0x10000) % 0x400)))) tail acc
      (by
        have := unescape1_pair c.toNat hlow hhigh tail
        simpa [List.append_assoc] using this)
    simp only [List.cons_append, List.append_assoc] at this ⊢
    rw [this, Char.ofNat_toNat]

theorem pjsg_escList (l : List Char) (tail acc : List Char) :
    parseJStringGo (escList l ++ ('"' :: tail)) acc 0 = some (acc ++ l, tail) := by
  induction l generalizing acc with
  | nil =>
    simp only [escList, List.nil_append, List.append_nil]
    exact pjsg_quote tail acc
  | cons c l ih =>
    simp only [escList, List.append_assoc]
    rw [pjsg_escChar c (escList l ++ ('"' :: tail)) acc]
    rw [ih (acc ++ [c])]
    simp

theorem parseJString_escList (l : List Char) (tail acc : List Char) :
    parseJString (escList l ++ ('"' :: tail)) acc = some (acc ++ l, tail) :=
  pjsg_escList l tail acc

theorem string_mk_data (s : String) : String.mk s.data = s := rfl

theorem parseCore_value_str (fuel : Nat) (cs0 rest l : List Char)
    (h : skipWs cs0 = '"' :: (escList l ++ ('"' :: rest))) :
    parseCore (fuel + 1) PMode.value cs0 = some (JVal.str (String.mk l), rest) := by
  simp only [parseCore, h, Char.reduceEq, reduceIte, parseJString, pjsg_escList,
    List.nil_append]

theorem parseCore_members_skipWs (fuel : Nat) (acc : List (String × JVal)) (a b : List Char)
    (h : skipWs a = skipWs b) :
    parseCore fuel (PMode.members acc) a = parseCore fuel (PMode.members acc) b := by
  cases fuel with
  | zero => rfl
  | succ f => simp only [parseCore, h]

theorem parseCore_member_step (f : Nat) (k v : String) (acc : List (String × JVal))
    (lvl : Nat) (rest4 : List Char) (hf : 1 ≤ f) :
    parseCore (f + 1) (PMode.members acc)
      (indentChars lvl ++ (qChars k ++ ':' :: ' ' :: (qChars v ++ rest4))) =
      (match skipWs rest4 with
       | [] => none
       | c3 :: rest5 =>
         if c3 = ',' then parseCore f (PMode.members (acc ++ [(k, JVal.str v)])) rest5
         else if c3 = '}' then some (JVal.obj (acc ++ [(k, JVal.str v)]), rest5)
         else none) := by
  obtain ⟨g, rfl⟩ : ∃ g, f = g + 1 := ⟨f - 1, by omega⟩
  have hskip1 : skipWs (indentChars lvl ++ (qChars k ++ ':' :: ' ' :: (qChars v ++ rest4))) =
      '"' :: (escList k.data ++ ('"' :: (':' :: ' ' :: (qChars v ++ rest4)))) := by
    rw [skipWs_indent]
    simp only [qChars, List.cons_append, List.append_assoc]
    exact skipWs_cons_neg (by decide) _
  have hskip2 : skipWs (':' :: ' ' :: (qChars v ++ rest4)) =
      ':' :: ' ' :: (qChars v ++ rest4) := skipWs_cons_neg (by decide) _
  have hval : parseCore (g + 1) PMode.value (' ' :: (qChars v ++ rest4)) =
      some (JVal.str v, rest4) := by
    have hsk : skipWs (' ' :: (qChars v ++ rest4)) =
        '"' :: (escList v.data ++ ('"' :: rest4)) := by
      rw [skipWs_cons_pos (by decide)]
      simp only [qChars, List.cons_append, List.append_assoc]
      exact skipWs_cons_neg (by decide) _
    rw [parseCore_value_str g _ _ _ hsk, string_mk_data]
  rw [parseCore]
  simp only [hskip1, Char.reduceEq, reduceIte, parseJString, pjsg_escList,
    List.nil_append, hskip2, hval, string_mk_data]

theorem parseCore_members_dumps (ps : List (String × String)) :
    ∀ (k v : String) (fuel : Nat) (acc : List (String × JVal)) (lvl j : Nat) (tail : List Char),
    ps.length + 2 ≤ fuel →
    parseCore fuel (PMode.members acc)
      (dumpMembersChars lvl (k, JVal.str v) (strPairs ps) ++
        '\n' :: (indentChars j ++ '}' :: tail)) =
      some (JVal.obj (acc ++ (k, JVal.str v) :: strPairs ps), tail) := by
  induction ps with
  | nil =>
    intro k v fuel acc lvl j tail hfuel
    obtain ⟨f, rfl⟩ : ∃ f, fuel = f + 1 := ⟨fuel - 1, by omega⟩
    have hbody : dumpMembersChars lvl (k, JVal.str v) (strPairs []) ++
        '\n' :: (indentChars j ++ '}' :: tail) =
        indentChars lvl ++ (qChars k ++ ':' :: ' ' ::
          (qChars v ++ ('\n' :: (indentChars j ++ '}' :: tail)))) := by
      simp [strPairs, dumpMembersChars, dumpChars, List.append_assoc]
    rw [hbody, parseCore_member_step f k v acc lvl _ (by omega)]
    have hsk : skipWs ('\n' :: (indentChars j ++ '}' :: tail)) = '}' :: tail := by
      rw [skipWs_cons_pos (by decide), skipWs_indent]
      exact skipWs_cons_neg (by decide) _
    simp [hsk, strPairs]
  | cons p ps ih =>
    intro k v fuel acc lvl j tail hfuel
    obtain ⟨f, rfl⟩ : ∃ f, fuel = f + 1 := ⟨fuel - 1, by omega⟩
    have hbody : dumpMembersChars lvl (k, JVal.str v) (strPairs (p :: ps)) ++
        '\n' :: (indentChars j ++ '}' :: tail) =
        indentChars lvl ++ (qChars k ++ ':' :: ' ' ::
          (qChars v ++ (',' :: '\n' :: (dumpMembersChars lvl (p.1, JVal.str p.2) (strPairs ps) ++
            '\n' :: (indentChars j ++ '}' :: tail))))) := by
      simp [strPairs, dumpMembersChars, dumpChars, List.append_assoc]
    rw [hbody, parseCore_member_step f k v acc lvl _ (by omega)]
    have hsk : skipWs (',' :: '\n' :: (dumpMembersChars lvl (p.1, JVal.str p.2) (strPairs ps) ++
        '\n' :: (indentChars j ++ '}' :: tail))) =
        ',' :: '\n' :: (dumpMembersChars lvl (p.1, JVal.str p.2) (strPairs ps) ++
          '\n' :: (indentChars j ++ '}' :: tail)) := skipWs_cons_neg (by decide) _
    rw [hsk]
    simp only [Char.reduceEq, reduceIte]
    rw [parseCore_members_skipWs f _ _ _ (skipWs_cons_pos (by decide) _)]
    rw [ih p.1 p.2 f (acc ++ [(k, JVal.str v)]) lvl j tail (by simp only [List.length_cons] at hfuel; omega)]
    simp [strPairs]

theorem dm_head (lvl : Nat) (k v : String) (l : List (String × JVal)) :
    ∃ R, dumpMembersChars lvl (k, JVal.str v) l = indentChars lvl ++ ('"' :: R) := by
  cases l with
  | nil =>
    refine ⟨escList k.data ++ ('"' :: ':' :: ' ' :: dumpChars lvl (JVal.str v)), ?_⟩
    simp [dumpMembersChars, qChars, List.append_assoc]
  | cons g gs =>
    refine ⟨escList k.data ++ ('"' :: ':' :: ' ' :: (dumpChars lvl (JVal.str v) ++
      ',' :: '\n' :: dumpMembersChars lvl g gs)), ?_⟩
    simp [dumpMembersChars, qChars, List.append_assoc]

theorem dumpMembersChars_len (ps : List (String × String)) :
    ∀ (lvl : Nat) (k v : String),
    ps.length + 1 ≤ (dumpMembersChars lvl (k, JVal.str v) (strPairs ps)).length := by
  induction ps with
  | nil =>
    intro lvl k v
    simp [dumpMembersChars, strPairs, qChars, dumpChars]
    omega
  | cons p ps ih =>
    intro lvl k v
    have h := ih lvl p.1 p.2
    simp only [dumpMembersChars, strPairs, qChars, dumpChars, List.length_append,
      List.length_cons, List.map_cons] at h ⊢
    omega

theorem json_loads_dumps (k v : String) (ps : List (String × String)) :
    json_loads (json_dumps (JVal.obj ((k, JVal.str v) :: strPairs ps))) =
      some (JVal.obj ((k, JVal.str v) :: strPairs ps)) := by
  have hdump : (json_dumps (JVal.obj ((k, JVal.str v) :: strPairs ps))).data =
      '{' :: '\n' :: (dumpMembersChars 1 (k, JVal.str v) (strPairs ps) ++
        '\n' :: (indentChars 0 ++ '}' :: [])) := by
    simp [json_dumps, dumpChars]
  obtain ⟨R, hR⟩ := dm_head 1 k v (strPairs ps)
  have hskipMZ : skipWs (dumpMembersChars 1 (k, JVal.str v) (strPairs ps) ++
      '\n' :: (indentChars 0 ++ '}' :: [])) =
      '"' :: (R ++ '\n' :: (indentChars 0 ++ '}' :: [])) := by
    rw [hR]
    simp only [List.append_assoc, List.cons_append]
    rw [skipWs_indent]
    exact skipWs_cons_neg (by decide) _
  have hlen : ps.length + 2 ≤
      ('{' :: '\n' :: (dumpMembersChars 1 (k, JVal.str v) (strPairs ps) ++
        '\n' :: (indentChars 0 ++ '}' :: ([] : List Char)))).length := by
    have := dumpMembersChars_len ps 1 k v
    simp only [List.length_cons, List.length_append]
    omega
  rw [json_loads, hdump]
  rw [parseCore]
  rw [skipWs_cons_neg (by decide)]
  simp only [Char.reduceEq, reduceIte]
  rw [skipWs_cons_pos (by decide), hskipMZ]
  simp only [Char.reduceEq, reduceIte]
  rw [parseCore_members_skipWs _ _ _
    (dumpMembersChars 1 (k, JVal.str v) (strPairs ps) ++ '\n' :: (indentChars 0 ++ '}' :: []))
    (by rw [hskipMZ]; exact skipWs_cons_neg (by decide) _)]
  rw [parseCore_members_dumps ps k v _ [] 1 0 [] (by simpa using hlen)]
  simp [skipWs]

theorem headE (l : List Char) :
    (("Error reading result for worker ").data ++ l).head? = some 'E' := rfl

theorem headW (l : List Char) :
    (("Worker ").data ++ l).head? = some 'W' := rfl

theorem idx_pending : (" is still running or failed. No result found yet.").data[1]? = some 'i' := rfl

theorem idx_completed (D : List Char) :
    ((" completed. Result:\n").data ++ D)[1]? = some 'c' := rfl

theorem readErr_ne_pending (wid : String) : readErrMsg wid ≠ pendingMsg wid := by
  intro h
  have h2 := congrArg (fun s => s.data.head?) h
  simp only [readErrMsg, pendingMsg, String.data_append, List.append_assoc] at h2
  rw [headE, headW] at h2
  exact absurd h2 (by decide)

theorem readErr_ne_completed (wid : String) (v : JVal) : readErrMsg wid ≠ completedMsg wid v := by
  intro h
  have h2 := congrArg (fun s => s.data.head?) h
  simp only [readErrMsg, completedMsg, String.data_append, List.append_assoc] at h2
  rw [headE, headW] at h2
  exact absurd h2 (by decide)

theorem pending_ne_completed (wid : String) (v : JVal) : pendingMsg wid ≠ completedMsg wid v := by
  intro h
  have h2 := congrArg String.data h
  simp only [pendingMsg, completedMsg, String.data_append, List.append_assoc] at h2
  have h3 := List.append_cancel_left h2
  have h4 := List.append_cancel_left h3
  have h5 := congrArg (fun l => l[1]?) h4
  simp only at h5
  rw [idx_pending, idx_completed] at h5
  exact absurd h5 (by decide)

theorem writeFileStates_empty_mem (content : String) : some "" ∈ writeFileStates content :=
  List.mem_map.mpr ⟨0, List.mem_range.mpr (Nat.succ_pos _), by rw [List.take_zero]⟩

theorem writeFileStates_full_mem (content : String) : some content ∈ writeFileStates content :=
  List.mem_map.mpr ⟨content.length, List.mem_range.mpr (by omega), by
    show some (String.mk (List.take content.length content.data)) = some content
    rw [show content.length = content.data.length from rfl, List.take_length, string_mk_data]⟩

theorem json_dumps_ne_empty (role goal : String) (agentRun : Except String String) :
    "" ≠ json_dumps (run_workerJson role goal agentRun) := by
  intro h
  have h2 := congrArg (fun s => s.data.length) h
  cases agentRun <;>
    simp [json_dumps, run_workerJson, run_workerRecord, strPairs, dumpChars] at h2

/-! ## The claims -/

/-- C1: for every wrapped operation that raises on every call (any family
of error texts `errF`, any healer responses), `self_healing_tool` calls
the operation exactly 3 times and then returns — never raises — the
terminal failure string, which contains the operation's name and the
text of the last observed error. -/
theorem claim_C1_exhausted_failure (name : String) (errF : Nat → JVal → String)
    (healer : Nat → String) (kwargs : JVal) :
    (self_healing_tool name (fun i k => Except.error (errF i k)) healer kwargs).opCalls = 3 ∧
    (self_healing_tool name (fun i k => Except.error (errF i k)) healer kwargs).value =
      "Tool '" ++ name ++ "' failed permanently after 3 attempts. Last error: " ++
        errF 2 (healUpdate (healer 1) (healUpdate (healer 0) kwargs)) ∧
    (∃ pre post,
      (self_healing_tool name (fun i k => Except.error (errF i k)) healer kwargs).value.data =
        pre ++ name.data ++ post) ∧
    (∃ pre,
      (self_healing_tool name (fun i k => Except.error (errF i k)) healer kwargs).value.data =
        pre ++ (errF 2 (healUpdate (healer 1) (healUpdate (healer 0) kwargs))).data) := by
  refine ⟨?_, ?_, ?_, ?_⟩
  · simp [self_healing_tool, selfHealingGo]
  · simp [self_healing_tool, selfHealingGo]
  · refine ⟨("Tool '").data,
      ("' failed permanently after 3 attempts. Last error: ").data ++
        (errF 2 (healUpdate (healer 1) (healUpdate (healer 0) kwargs))).data, ?_⟩
    simp [self_healing_tool, selfHealingGo, String.data_append, List.append_assoc]
  · refine ⟨("Tool '").data ++ name.data ++
      ("' failed permanently after 3 attempts. Last error: ").data, ?_⟩
    simp [self_healing_tool, selfHealingGo, String.data_append, List.append_assoc]

/-- C2: for every role, goal and workspace, the Worker Runtime terminates
by writing exactly one ResultRecord to the workspace's result file: on a
successful reasoning call a record with status `success` and the
response text, and on a raising reasoning call a record with status
`error` and the failure description.  `run_worker` is a total function
of its oracles, so no exception escapes without the record being
written. -/
theorem claim_C2_worker_always_writes (role goal workspace_dir r e : String) :
    (run_worker role goal workspace_dir (Except.ok r)).length = 1 ∧
    (run_worker role goal workspace_dir (Except.error e)).length = 1 ∧
    run_worker role goal workspace_dir (Except.ok r) =
      [(workspace_dir ++ "/result.json",
        json_dumps (JVal.obj [("status", JVal.str "success"), ("role", JVal.str role),
          ("goal", JVal.str goal), ("response", JVal.str r)]))] ∧
    run_worker role goal workspace_dir (Except.error e) =
      [(workspace_dir ++ "/result.json",
        json_dumps (JVal.obj [("status", JVal.str "error"), ("role", JVal.str role),
          ("goal", JVal.str goal), ("error", JVal.str e)]))] := by
  refine ⟨rfl, rfl, ?_, ?_⟩ <;> simp [run_worker, run_workerJson, run_workerRecord, strPairs]

/-- C3: `check_worker_status` has exactly three distinguishable outcomes:
the pending message when the result file is absent, the read-error
message (distinct from the pending and completed messages) when the file
is present but malformed, and the completed message with the parsed
record when the file parses; a malformed file is never reported as
pending. -/
theorem claim_C3_poll_trichotomy (wid content : String) :
    check_worker_status wid none = pendingMsg wid ∧
    (json_loads content = none →
      check_worker_status wid (some content) = readErrMsg wid ∧
      pollClassify (some content) = PollOutcome.readError) ∧
    (∀ v, json_loads content = some v →
      check_worker_status wid (some content) = completedMsg wid v ∧
      pollClassify (some content) = PollOutcome.completed v) ∧
    (∀ fs : Option String, pollClassify fs = PollOutcome.pending ∨
      pollClassify fs = PollOutcome.readError ∨
      ∃ v, pollClassify fs = PollOutcome.completed v) ∧
    readErrMsg wid ≠ pendingMsg wid ∧
    (∀ v, readErrMsg wid ≠ completedMsg wid v) ∧
    (∀ v, pendingMsg wid ≠ completedMsg wid v) := by
  refine ⟨rfl, ?_, ?_, ?_, readErr_ne_pending wid, fun v => readErr_ne_completed wid v,
    fun v => pending_ne_completed wid v⟩
  · intro h
    exact ⟨by simp [check_worker_status, h], by simp [pollClassify, h]⟩
  · intro v h
    exact ⟨by simp [check_worker_status, h], by simp [pollClassify, h]⟩
  · intro fs
    cases fs with
    | none => exact Or.inl rfl
    | some c =>
      cases hc : json_loads c with
      | none => exact Or.inr (Or.inl (by simp [pollClassify, hc]))
      | some v => exact Or.inr (Or.inr ⟨v, by simp [pollClassify, hc]⟩)

theorem claim_C3_witness :
    check_worker_status "w1" none = pendingMsg "w1" ∧
    check_worker_status "w1" (some "\x7b") = readErrMsg "w1" ∧
    check_worker_status "w1" (some "null") = completedMsg "w1" JVal.null :=
  ⟨(claim_C3_poll_trichotomy "w1" "\x7b").1,
    ((claim_C3_poll_trichotomy "w1" "\x7b").2.1 rfl).1,
    ((claim_C3_poll_trichotomy "w1" "null").2.2.1 JVal.null rfl).1⟩

/-- C4 (amended): the worker's publish is not atomic.  `run_worker`
writes the record by truncating `result.json` in place and streaming the
serialized text, so a poll during the write window can observe a
partially-written state — in particular the just-truncated empty file,
which is a state distinct from the final record and which Poll
classifies as a read error, not as pending and not as completed. -/
theorem claim_C4_amended_nonatomic_write (role goal : String) (agentRun : Except String String) :
    some "" ∈ writeFileStates (json_dumps (run_workerJson role goal agentRun)) ∧
    some (json_dumps (run_workerJson role goal agentRun)) ∈
      writeFileStates (json_dumps (run_workerJson role goal agentRun)) ∧
    pollClassify (some "") = PollOutcome.readError ∧
    "" ≠ json_dumps (run_workerJson role goal agentRun) :=
  ⟨writeFileStates_empty_mem _, writeFileStates_full_mem _, rfl,
    json_dumps_ne_empty role goal agentRun⟩

/-- C4 counterexample: at a concrete record written by the worker, the
empty just-truncated file is one of the observable states of the write,
it differs from the completed record's content, and a poll observing it
reports a read error — so a poll can observe a partially-written
record, contradicting the claimed all-or-nothing publish. -/
theorem claim_C4_counterexample :
    some "" ∈ writeFileStates
      (json_dumps (run_workerJson "Researcher" "Summarize topic X" (Except.ok "done"))) ∧
    some "" ≠
      some (json_dumps (run_workerJson "Researcher" "Summarize topic X" (Except.ok "done"))) ∧
    pollClassify (some "") = PollOutcome.readError :=
  ⟨writeFileStates_empty_mem _,
    fun h => json_dumps_ne_empty "Researcher" "Summarize topic X" (Except.ok "done")
      (Option.some.inj h),
    rfl⟩

/-- C5 (amended): when a failure occurs, the wrapper invokes the
corrective reasoning call on every failed attempt, including the one at
which the attempt counter reaches the retry ceiling; for an operation
failing on all 3 attempts the healer runs 3 times, and only after that
final corrective call does the wrapper return the terminal failure
string. -/
theorem claim_C5_amended_heals_at_ceiling (name : String) (errF : Nat → JVal → String)
    (healer : Nat → String) (kwargs : JVal) :
    (self_healing_tool name (fun i k => Except.error (errF i k)) healer kwargs).healerCalls = 3 ∧
    (self_healing_tool name (fun i k => Except.error (errF i k)) healer kwargs).value =
      "Tool '" ++ name ++ "' failed permanently after 3 attempts. Last error: " ++
        errF 2 (healUpdate (healer 1) (healUpdate (healer 0) kwargs)) := by
  constructor <;> simp [self_healing_tool, selfHealingGo]

/-- C5 counterexample: for a concrete operation that fails on every
attempt, the corrective reasoning call runs 3 times — not at most 2 as
the claim's "only while the attempt counter is strictly below the
ceiling" would require. -/
theorem claim_C5_counterexample :
    (self_healing_tool "read_file" (fun _ _ => Except.error "boom") (fun _ => "nope")
      (JVal.obj [])).healerCalls = 3 ∧
    ¬ (self_healing_tool "read_file" (fun _ _ => Except.error "boom") (fun _ => "nope")
      (JVal.obj [])).healerCalls ≤ 2 := by
  constructor <;> decide

/-- C6: the healer response is stripped of code fences and
reasoning-trace markers (`cleanResponse`) before being parsed as JSON;
if parsing fails the wrapper does not crash, retains the previous
argument set unchanged for the next attempt, and still consumes the
attempt.  The second conjunct checks the specification's concrete
scenario: a fenced JSON payload with an embedded think block is cleaned
to exactly the argument mapping. -/
theorem claim_C6_heal_parse_fallback :
    (∀ (name : String) (op : Nat → JVal → Except String String) (healer : Nat → String)
      (i : Nat) (rest : List Nat) (current : JVal) (lastError e : String),
      op i current = Except.error e →
      json_loads (cleanResponse (healer i)) = none →
      selfHealingGo name op healer (i :: rest) current lastError =
        bump (selfHealingGo name op healer rest current e)) ∧
    json_loads (cleanResponse
        "<think>deliberating</think>```json\n\x7b\"file_path\": \"/tmp/x\"\x7d\n```") =
      some (JVal.obj [("file_path", JVal.str "/tmp/x")]) := by
  constructor
  · intro name op healer i rest current lastError e hop hparse
    simp only [selfHealingGo, hop, healUpdate, hparse, bump]
  · rfl

theorem claim_C6_witness :
    ((fun (_ : Nat) (_ : JVal) => (Except.error "E" : Except String String)) 0 (JVal.obj []) =
      Except.error "E") ∧
    json_loads (cleanResponse ((fun (_ : Nat) => "no fix available") 0)) = none ∧
    selfHealingGo "write_file" (fun _ _ => Except.error "E") (fun _ => "no fix available")
      [0, 1, 2] (JVal.obj []) "" =
      bump (selfHealingGo "write_file" (fun _ _ => Except.error "E") (fun _ => "no fix available")
        [1, 2] (JVal.obj []) "E") :=
  ⟨rfl, rfl,
    claim_C6_heal_parse_fallback.1 "write_file" (fun _ _ => Except.error "E")
      (fun _ => "no fix available") 0 [1, 2] (JVal.obj []) "" "E" rfl rfl⟩

/-- C7: for every ResultRecord the worker writes, a subsequent poll
returns Completed with exactly the parsed record (JSON round-trip), and
the record's `status`, `role` and `goal` fields are exactly the values
the worker produced — in both the success and the error case. -/
theorem claim_C7_roundtrip_fidelity (role goal r e : String) :
    (pollClassify (some (json_dumps (run_workerJson role goal (Except.ok r)))) =
        PollOutcome.completed (run_workerJson role goal (Except.ok r)) ∧
      objGet (run_workerJson role goal (Except.ok r)) "status" = some (JVal.str "success") ∧
      objGet (run_workerJson role goal (Except.ok r)) "role" = some (JVal.str role) ∧
      objGet (run_workerJson role goal (Except.ok r)) "goal" = some (JVal.str goal)) ∧
    (pollClassify (some (json_dumps (run_workerJson role goal (Except.error e)))) =
        PollOutcome.completed (run_workerJson role goal (Except.error e)) ∧
      objGet (run_workerJson role goal (Except.error e)) "status" = some (JVal.str "error") ∧
      objGet (run_workerJson role goal (Except.error e)) "role" = some (JVal.str role) ∧
      objGet (run_workerJson role goal (Except.error e)) "goal" = some (JVal.str goal)) := by
  constructor
  · have hshape : run_workerJson role goal (Except.ok r) =
        JVal.obj (("status", JVal.str "success") ::
          strPairs [("role", role), ("goal", goal), ("response", r)]) := by
      simp [run_workerJson, run_workerRecord, strPairs]
    refine ⟨?_, ?_, ?_, ?_⟩
    · rw [hshape]
      simp only [pollClassify,
        json_loads_dumps "status" "success" [("role", role), ("goal", goal), ("response", r)]]
    · rfl
    · rfl
    · rfl
  · have hshape : run_workerJson role goal (Except.error e) =
        JVal.obj (("status", JVal.str "error") ::
          strPairs [("role", role), ("goal", goal), ("error", e)]) := by
      simp [run_workerJson, run_workerRecord, strPairs]
    refine ⟨?_, ?_, ?_, ?_⟩
    · rw [hshape]
      simp only [pollClassify,
        json_loads_dumps "status" "error" [("role", role), ("goal", goal), ("error", e)]]
    · rfl
    · rfl
    · rfl

/-- C8 (amended): the permission gate first normalizes the operator's
line with `strip().lower()`; if the normalized input is `"y"` the
operation executes (exactly once) and its result is returned, if `"n"`
the operation does not execute and the standard denial message is
returned, and any input not normalizing to `"y"` or `"n"` re-prompts
(the gate behaves as if that line had not been read) without executing
the operation. -/
theorem claim_C8_amended_gate_normalizes (op : Unit → String) (c : String) (rest : List String) :
    (pyLower (pyStrip c) = "y" →
      requires_permission op (c :: rest) =
        { outcome := GateOutcome.allowed (op ()), opCalls := 1 }) ∧
    (pyLower (pyStrip c) = "n" →
      requires_permission op (c :: rest) =
        { outcome := GateOutcome.denied
            "Permission Denied: User rejected the execution of this tool.", opCalls := 0 }) ∧
    (pyLower (pyStrip c) ≠ "y" → pyLower (pyStrip c) ≠ "n" →
      requires_permission op (c :: rest) = requires_permission op rest) := by
  refine ⟨?_, ?_, ?_⟩
  · intro h
    simp [requires_permission, h]
  · intro h
    simp [requires_permission, h]
  · intro hy hn
    simp [requires_permission, hy, hn]

theorem claim_C8_witness :
    pyLower (pyStrip "y") = "y" ∧
    requires_permission (fun _ => "spawned") ["y"] =
      { outcome := GateOutcome.allowed "spawned", opCalls := 1 } ∧
    requires_permission (fun _ => "spawned") ["n"] =
      { outcome := GateOutcome.denied
          "Permission Denied: User rejected the execution of this tool.", opCalls := 0 } ∧
    requires_permission (fun _ => "spawned") ["maybe"] =
      requires_permission (fun _ => "spawned") [] :=
  ⟨rfl, (claim_C8_amended_gate_normalizes (fun _ => "spawned") "y" []).1 rfl,
    (claim_C8_amended_gate_normalizes (fun _ => "spawned") "n" []).2.1 rfl,
    (claim_C8_amended_gate_normalizes (fun _ => "spawned") "maybe" []).2.2
      (by decide) (by decide)⟩

/-- C8 counterexample: the operator input `"Y"` is neither the string
`"y"` nor `"n"`, yet the gate executes the wrapped operation (because
the code lower-cases the input first) instead of re-prompting — so "any
other input re-prompts without executing the operation" is false as
stated. -/
theorem claim_C8_counterexample :
    ("Y" : String) ≠ "y" ∧ ("Y" : String) ≠ "n" ∧
    requires_permission (fun _ => "executed") ["Y"] =
      { outcome := GateOutcome.allowed "executed", opCalls := 1 } := by
  refine ⟨by decide, by decide, by decide⟩

/-- C9: `spawn_worker` does not fail when the workspace directory for
the generated handle already exists: `os.makedirs` is called with
`exist_ok=True`, so the pre-existing directory is silently reused (the
directory set is unchanged), the worker is still launched, and the
handle message is returned. -/
theorem claim_C9_spawn_exist_ok (role goal worker_id : String) (dirs : List String)
    (h : ("./workspaces/" ++ worker_id) ∈ dirs) :
    spawn_worker role goal worker_id dirs =
      Except.ok ⟨dirs, true,
        "Worker Started. ID: " ++ worker_id ++
          ". Check status later with check_worker_status."⟩ := by
  simp [spawn_worker, makedirs, h]

theorem claim_C9_witness :
    (("./workspaces/" ++ "w-42") ∈ ["./workspaces/w-42"]) ∧
    spawn_worker "Researcher" "Summarize topic X" "w-42" ["./workspaces/w-42"] =
      Except.ok ⟨["./workspaces/w-42"], true,
        "Worker Started. ID: " ++ "w-42" ++
          ". Check status later with check_worker_status."⟩ :=
  ⟨by decide, claim_C9_spawn_exist_ok "Researcher" "Summarize topic X" "w-42"
    ["./workspaces/w-42"] (by decide)⟩

/-- C10: `get_credential` never returns the credential value: its
returned message factors through the service name and two booleans
(whether a non-empty token was found in the environment, and whether
the manual input was non-empty) — `credMessage` is built from the
service name alone, so no token value flows into the returned string,
whichever of the three branches is taken. -/
theorem claim_C10_no_credential_leak (service_name manualInput : String)
    (env : List (String × String)) :
    (get_credential service_name env manualInput).2 =
      credMessage service_name
        (((envLookup env (pyUpper service_name ++ "_TOKEN")).getD "") != "")
        ((pyStrip manualInput) != "") := by
  by_cases h1 : ((envLookup env (pyUpper service_name ++ "_TOKEN")).getD "") = ""
  · by_cases h2 : (pyStrip manualInput) = ""
    · simp [get_credential, credMessage, h1, h2]
    · simp [get_credential, credMessage, h1, h2]
  · simp [get_credential, credMessage, h1]
